import Mathlib

/-
Verification of the College Compass repository (a Streamlit college-counseling
application) against its natural-language specification.

The development shallowly embeds the Python code that the checked claims are
about:

- the string utilities of Python (strip, upper, lower, str.replace, split)
  acting on lists of characters;
- Database.execute / Database.execute_one (src/models/database.py);
- the college-matches cache decision of render_college_matches
  (src/components/college_matches.py);
- the calendar export (src/utils/calendar_export.py);
- the retry/fallback ladder BaseAgent._make_api_call (src/agents/base.py);
- PrimaryCounselorAgent.route_query and the actionable-item extractor of
  src/agents/primary_counselor.py, including a faithful rendition of the
  regular expressions the extractor uses.

All definitions are executable; claims are settled by theorems about them.
-/

set_option maxRecDepth 100000

namespace CollegeCompass

/-! ## Python string primitives on lists of characters -/

/-- Characters treated as whitespace by Python str.strip (the ASCII subset,
which covers every string manipulated by the embedded code). -/
def pySpace (c : Char) : Bool :=
  c = ' ' || c = '\t' || c = '\n' || c = '\r' || c = '\x0b' || c = '\x0c'

/-- Python str.strip: remove leading and trailing whitespace. -/
def pyStrip (l : List Char) : List Char :=
  ((l.dropWhile pySpace).reverse.dropWhile pySpace).reverse

/-- ASCII upper-casing of a single character (Python str.upper restricted to
ASCII, which covers the SQL keywords the embedded code inspects). -/
def asciiUpper (c : Char) : Char :=
  if 'a' ≤ c ∧ c ≤ 'z' then Char.ofNat (c.toNat - 32) else c

/-- ASCII lower-casing of a single character (Python str.lower restricted to
ASCII, which covers the metadata keys the embedded code inspects). -/
def asciiLower (c : Char) : Char :=
  if 'A' ≤ c ∧ c ≤ 'Z' then Char.ofNat (c.toNat + 32) else c

/-- Python str.upper on a whole string. -/
def pyUpper (l : List Char) : List Char := l.map asciiUpper

/-- Python str.lower on a whole string. -/
def pyLower (l : List Char) : List Char := l.map asciiLower

/-- Remove the literal pattern from the front of the string: returns the
remainder when the string starts with the pattern, and none otherwise. -/
def chomp? : List Char → List Char → Option (List Char)
  | [], s => some s
  | _ :: _, [] => none
  | p :: ps, c :: cs => if p = c then chomp? ps cs else none

/-- Split at the first occurrence of the literal pattern: returns the text
before the occurrence and the text after it, or none when the pattern does
not occur. -/
def splitFirst (pat : List Char) : List Char → Option (List Char × List Char)
  | [] =>
    match chomp? pat [] with
    | some r => some ([], r)
    | none => none
  | c :: cs =>
    match chomp? pat (c :: cs) with
    | some r => some ([], r)
    | none => (splitFirst pat cs).map fun p => (c :: p.1, p.2)

/-! ## Database.execute and Database.execute_one (src/models/database.py) -/

/-- Test used by Database.execute and Database.execute_one on the query text:
query.strip().upper().startswith('SELECT'). -/
def isSelectQuery (q : List Char) : Bool :=
  (chomp? "SELECT".toList (pyUpper (pyStrip q))).isSome

/-- Result of Database.execute: the rows handed back to the caller together
with whether conn.commit() ran. -/
structure ExecResult (Row : Type) where
  rows : List Row
  committed : Bool
deriving DecidableEq

/-- Result of Database.execute_one. -/
structure ExecOneResult (Row : Type) where
  row : Option Row
  committed : Bool
deriving DecidableEq

/-- Database.execute (src/models/database.py lines 166-179): the cursor has
produced the rows in produced; a SELECT-prefixed query fetches them all
without committing, any other query commits and returns the empty list,
discarding produced. -/
def dbExecute {Row : Type} (query : List Char) (produced : List Row) : ExecResult Row :=
  if isSelectQuery query then ⟨produced, false⟩ else ⟨[], true⟩

/-- Database.execute_one (src/models/database.py lines 181-193): fetchone
returns the first produced row (if any) for every query; commit runs exactly
when the query is not SELECT-prefixed. -/
def dbExecuteOne {Row : Type} (query : List Char) (produced : List Row) : ExecOneResult Row :=
  ⟨produced.head?, !isSelectQuery query⟩

/-! ## The college-matches cache decision (src/components/college_matches.py) -/

/-- Row of the college_matches table as read by render_college_matches:
`SELECT matches, updated_at ... ORDER BY updated_at DESC LIMIT 1`.  The table
(src/models/database.py lines 114-120) has no version or profile_hash
column.  The matches column is named matchesDoc here because matches is a
reserved word in Lean. -/
structure CollegeMatchRow where
  matchesDoc : String
  updated_at : Int
deriving DecidableEq

/-- Outcome of a fetch in render_college_matches: either a fresh document is
generated (and inserted) or the cached row is displayed unchanged. -/
inductive FetchOutcome where
  | regenerated (doc : String)
  | cachedDoc (row : CollegeMatchRow)
deriving DecidableEq

/-- Cache decision of render_college_matches (src/components/college_matches.py
lines 231-266): cached_record is None when the refresh button was pressed,
otherwise the newest stored row; the code regenerates iff
`not cached_record or force_refresh` and otherwise displays the cached row.
The source consults neither the clock nor any stored version or profile hash
(the table stores none), so now and profile are accepted and ignored exactly
as the source ignores them; generate stands for
CounselorAgent.generate_college_matches applied to the profile. -/
def render_college_matches_fetch (force_refresh : Bool) (now : Int) (profile : String)
    (stored : Option CollegeMatchRow) (generate : String → String) : FetchOutcome :=
  let cached_record : Option CollegeMatchRow := if force_refresh then none else stored
  match cached_record with
  | none => FetchOutcome.regenerated (generate profile)
  | some row => FetchOutcome.cachedDoc row

/-! ## Calendar export (src/utils/calendar_export.py) -/

/-- Deadline row as consumed by create_calendar_event: college_name,
deadline_type, deadline_date (a calendar day, modelled by its ordinal) and
the optional requirements['notes'] value (some n exactly when requirements is
a dict with a truthy notes entry). -/
structure Deadline where
  college_name : String
  deadline_type : String
  deadline_date : Int
  requirements_notes : Option String

/-- VALARM component as built by create_calendar_event: action, trigger
offset in days relative to the event start, and description. -/
structure CalAlarm where
  action : String
  trigger_days : Int
  description : String
deriving DecidableEq

/-- VEVENT component as built by create_calendar_event. -/
structure CalEvent where
  summary : String
  dtstart : Int
  dtend : Int
  description : String
  alarms : List CalAlarm

/-- create_calendar_event (src/utils/calendar_export.py lines 11-40): builds
one VEVENT per deadline, ending the day after the deadline, and attaches a
single DISPLAY alarm triggered 7 days before the event start. -/
def create_calendar_event (d : Deadline) : CalEvent :=
  let base := "College Application Deadline\n\n" ++ "College: " ++ d.college_name ++ "\n" ++
    "Type: " ++ d.deadline_type ++ "\n"
  { summary := "College Application: " ++ d.college_name ++ " (" ++ d.deadline_type ++ ")"
    dtstart := d.deadline_date
    dtend := d.deadline_date + 1
    description :=
      match d.requirements_notes with
      | some n => base ++ "\nNotes: " ++ n
      | none => base
    alarms := [{ action := "DISPLAY", trigger_days := -7,
                 description := "Reminder: " ++ d.college_name ++ " application due in 1 week" }] }

/-- Calendar object as built by generate_ics_file. -/
structure Calendar where
  prodid : String
  ics_version : String
  calscale : String
  events : List CalEvent

/-- generate_ics_file (src/utils/calendar_export.py lines 42-64): one event
per deadline row. -/
def generate_ics_file (deadlines : List Deadline) : Calendar :=
  { prodid := "-//College Compass//collegecompass.app//"
    ics_version := "2.0"
    calscale := "GREGORIAN"
    events := deadlines.map create_calendar_event }

/-! ## BaseAgent._make_api_call: retry ladder with provider fallback
(src/agents/base.py lines 57-82) -/

/-- ModelConfig as consumed by _make_api_call: the provider name together with
the optional fallback configuration (ModelConfig.fallback defaults to None,
src/src/config/manager.py lines 12-19, so a fallback built from a flat dict
carries no further fallback: the leaf constructor). -/
inductive ModelCfg where
  | leaf (provider : String)
  | withFb (provider : String) (fb : ModelCfg)

/-- Provider name of a configuration. -/
def ModelCfg.provider : ModelCfg → String
  | ModelCfg.leaf p => p
  | ModelCfg.withFb p _ => p

/-- Providers the dispatch in _make_api_call recognises (the openai branch and
the anthropic branch; any other name matches neither). -/
def knownProvider (p : String) : Bool :=
  p == "openai" || p == "anthropic"

/-- Result of _make_api_call: a returned completion text, a raised AgentError,
or the implicit None return produced when the retry loop finishes without
either (no branch of the provider dispatch taken). -/
inductive CallResult where
  | text (t : String)
  | raised
  | noneRet
deriving DecidableEq

/-- Outcome of the retry for-loop of _make_api_call on one configuration:
gotText is a provider request that returned, lastRaise is an exception on the
final attempt (the point where the fallback branch runs), and fellOff is the
loop completing all iterations without a return or a final-attempt exception
(only possible when the provider is unrecognised, in which case no request is
made at all).  Each outcome carries the providers of the requests made, in
order, and the next global request index. -/
inductive LadderOut where
  | gotText (t : String) (trace : List String) (next : Nat)
  | lastRaise (trace : List String) (next : Nat)
  | fellOff (trace : List String) (next : Nat)

/-- Retry loop of _make_api_call: `for attempt in range(retries)` on a single
configuration.  The oracle gives the outcome of the i-th provider request
overall (some t: the request returns text t; none: the provider raises); k is
the index of the next request; n counts the attempts remaining, so n = 1 on
the final attempt, where an exception becomes lastRaise.  An unrecognised
provider takes neither dispatch branch: no request, no exception, the loop
just runs out (fellOff). -/
def ladder (oracle : Nat → Option String) (prov : String) : Nat → Nat → LadderOut
  | 0, k => LadderOut.fellOff [] k
  | left + 1, k =>
    if knownProvider prov then
      match oracle k with
      | some t => LadderOut.gotText t [prov] (k + 1)
      | none =>
        if left = 0 then LadderOut.lastRaise [prov] (k + 1)
        else
          match ladder oracle prov left (k + 1) with
          | LadderOut.gotText t tr k2 => LadderOut.gotText t (prov :: tr) k2
          | LadderOut.lastRaise tr k2 => LadderOut.lastRaise (prov :: tr) k2
          | LadderOut.fellOff tr k2 => LadderOut.fellOff (prov :: tr) k2
    else
      ladder oracle prov left k

/-- BaseAgent._make_api_call (src/agents/base.py lines 57-82): run the retry
loop on the configuration; on an exception at the final attempt, if a
fallback client and a fallback configuration exist, swap the configuration
and recurse (a recursion that raises is swallowed and AgentError is re-raised,
so a raised recursion yields raised; a recursion that returns text or None is
returned as is).  Returns the result, the trace of provider requests, and the
next request index. -/
def make_api_call (oracle : Nat → Option String) (retries : Nat) (fbClient : Bool) :
    ModelCfg → Nat → CallResult × List String × Nat
  | ModelCfg.leaf p, k =>
    match ladder oracle p retries k with
    | LadderOut.gotText t tr k2 => (CallResult.text t, tr, k2)
    | LadderOut.fellOff tr k2 => (CallResult.noneRet, tr, k2)
    | LadderOut.lastRaise tr k2 => (CallResult.raised, tr, k2)
  | ModelCfg.withFb p fb, k =>
    match ladder oracle p retries k with
    | LadderOut.gotText t tr k2 => (CallResult.text t, tr, k2)
    | LadderOut.fellOff tr k2 => (CallResult.noneRet, tr, k2)
    | LadderOut.lastRaise tr k2 =>
      if fbClient then
        let r := make_api_call oracle retries fbClient fb k2
        (r.1, tr ++ r.2.1, r.2.2)
      else
        (CallResult.raised, tr, k2)

/-! ## PrimaryCounselorAgent.route_query (src/agents/primary_counselor.py
lines 366-399) -/

/-- Python exception kinds relevant to route_query. -/
inductive PyError where
  | typeError
  | valueError
deriving DecidableEq

/-- Routing decision dictionary returned by route_query. -/
structure RoutingDecision where
  needs_routing : Bool
  target_agent : Option String
  reason : String
deriving DecidableEq

/-- Parameter names of the method the call inside route_query dispatches to:
PrimaryCounselorAgent overrides _make_api_call (src/agents/primary_counselor.py
line 239) with signature (self, messages) only — unlike BaseAgent's version it
has no response_format parameter. -/
def pca_make_api_call_params : List String := ["self", "messages"]

/-- Routing prompt built by route_query (the leading indentation of the Python
triple-quoted f-string is normalised here; the prompt is never sent, because
the call below raises before any request). -/
def routing_prompt (query : String) : String :=
  "Analyze this query and determine if it should be handled by a specialized agent.\n" ++
  "Query: " ++ query ++ "\n\n" ++
  "Available specialized agents:\n" ++
  "1. Strategic Planning Agent: Long-term planning and strategy\n" ++
  "2. Timeline Management Agent: Deadlines and schedules\n" ++
  "3. College Research Agent: College matching and research\n" ++
  "4. Activity Planning Agent: Extracurricular planning\n" ++
  "5. Essay Development Agent: Essay guidance\n\n" ++
  "Respond in JSON format:\n\x7b\n" ++
  "\"needs_routing\": boolean,\n" ++
  "\"target_agent\": string or null,\n" ++
  "\"reason\": string\n\x7d\n"

/-- route_query (src/agents/primary_counselor.py lines 366-399).  The body
calls self._make_api_call(messages, response_format=...); Python keyword
dispatch raises TypeError when a keyword is not among the callee's parameter
names, which is checked here against pca_make_api_call_params before the
underlying call (modelled by the oracle api) may run.  Every exception in the
body is caught and turned into the no-routing dictionary.  Returns the
decision together with the number of provider classification requests
actually issued. -/
def route_query (query : String)
    (api : String → Except PyError String)
    (parseJson : String → Except PyError RoutingDecision) : RoutingDecision × Nat :=
  if ["response_format"].all (fun kw => pca_make_api_call_params.contains kw) then
    match api (routing_prompt query) with
    | Except.ok resp =>
      match parseJson resp with
      | Except.ok d => (d, 1)
      | Except.error _ => (⟨false, none, "Routing failed"⟩, 1)
    | Except.error _ => (⟨false, none, "Routing failed"⟩, 1)
  else
    (⟨false, none, "Routing failed"⟩, 0)

/-! ## Actionable-item extractor (src/agents/primary_counselor.py lines
107-191)

The extractor uses two regular expressions with re.DOTALL:

- tag pattern: an actionable opening literal, a non-empty id of non-quote
  characters, the two characters quote and greater-than, then the lazily
  shortest text up to the closing actionable literal (re.finditer, scanning
  left to right, non-overlapping);
- system pattern: the system opening literal, then the lazily shortest
  content up to the closing literal (re.search: earliest start position at
  which the whole pattern can match).

Both are rendered below as direct string scans with exactly those
semantics. -/

/-- Successful match of the tag pattern at the start of the string: captured
id, captured text, and the remainder after the closing literal. -/
structure TagMatch where
  tagId : List Char
  tagText : List Char
  tagRest : List Char

/-- Match of the actionable tag pattern anchored at the start of the string.
The id capture is the non-empty run of non-quote characters (the regex
backtracking cannot shrink it past the next quote), which must be followed
immediately by quote and greater-than; the text capture is everything up to
the first closing actionable literal. -/
def matchTag (s : List Char) : Option TagMatch :=
  match chomp? "<actionable id=\"".toList s with
  | none => none
  | some s1 =>
    if s1.takeWhile (fun c => c != '"') = [] then none
    else
      match s1.dropWhile (fun c => c != '"') with
      | '"' :: '>' :: s2 =>
        match splitFirst "</actionable>".toList s2 with
        | some (txt, rest) => some ⟨s1.takeWhile (fun c => c != '"'), txt, rest⟩
        | none => none
      | _ => none

/-- re.finditer of the tag pattern: scan left to right; at a match, emit the
two captures and resume after the match; otherwise advance one character.
Structured over explicit fuel so that the kernel can evaluate it; every step
consumes at least one character (matchTag_rest_lt), so fuel equal to the
length of the string, as supplied by findTags, is always sufficient and the
zero-fuel case is only reached on the empty string. -/
def findTagsAux : Nat → List Char → List (List Char × List Char)
  | 0, _ => []
  | fuel + 1, s =>
    match matchTag s with
    | some r => (r.tagId, r.tagText) :: findTagsAux fuel r.tagRest
    | none =>
      match s with
      | [] => []
      | _ :: s' => findTagsAux fuel s'

/-- All matches of the tag pattern, in order. -/
def findTags (s : List Char) : List (List Char × List Char) :=
  findTagsAux s.length s

/-- re.search of the system pattern: the earliest position carrying the
system opening literal with a closing literal somewhere after it; the capture
is the lazily shortest content between the two. -/
def findSystem : List Char → Option (List Char)
  | [] => none
  | c :: s =>
    match chomp? "[system]".toList (c :: s) with
    | some s1 =>
      match splitFirst "[/system]".toList s1 with
      | some (content, _) => some content
      | none => findSystem s
    | none => findSystem s

/-- Python str.split on a newline: always yields at least one (possibly
empty) piece. -/
def splitOnNl : List Char → List (List Char)
  | [] => [[]]
  | c :: s =>
    if c = '\n' then [] :: splitOnNl s
    else
      match splitOnNl s with
      | [] => [[c]]
      | l :: ls => (c :: l) :: ls

/-- Python dict assignment d[k] = v.  The model keeps one entry per key; the
entry for an overwritten key moves to the end rather than keeping its
original position, which is indistinguishable here because the embedded code
only ever looks dictionaries up by key and never iterates them. -/
def dictInsert {α : Type} (k : List Char) (v : α) (d : List (List Char × α)) :
    List (List Char × α) :=
  d.filter (fun p => p.1 != k) ++ [(k, v)]

/-- Python d.get(k): the value stored at the key, if any. -/
def dictGet? {α : Type} (d : List (List Char × α)) (k : List Char) : Option α :=
  (d.find? (fun p => p.1 == k)).map (fun p => p.2)

/-- Python str.startswith as used on the metadata lines. -/
def startsWithChars (pat l : List Char) : Bool := (chomp? pat l).isSome

/-- State of the line loop in _parse_actionable_items: the metadata dict, the
current bracket id, and the metadata collected for it so far. -/
structure MetaState where
  metadata : List (List Char × List (List Char × List Char))
  current_id : Option (List Char)
  current_meta : List (List Char × List Char)

/-- Save step of the loop: `if current_id is not None and current_metadata:
metadata[current_id] = current_metadata` — a bracket with no metadata lines
is dropped and overrides nothing. -/
def saveCurrent (st : MetaState) : List (List Char × List (List Char × List Char)) :=
  match st.current_id with
  | some cid =>
    if st.current_meta ≠ [] then dictInsert cid st.current_meta st.metadata
    else st.metadata
  | none => st.metadata

/-- One iteration of the metadata line loop (src/agents/primary_counselor.py
lines 128-140): strip the line; skip empty lines and lines starting with the
actionable: label; a line starting with an opening bracket and ending with a
closing bracket saves the current metadata (if non-empty) and opens the new
id (the line minus its first and last character); otherwise a line containing
a colon, when an id is open, records key (lower-cased, stripped) and value
(stripped), the first colon splitting the two. -/
def metaStep (st : MetaState) (rawLine : List Char) : MetaState :=
  let line := pyStrip rawLine
  if line = [] then st
  else if startsWithChars "actionable:".toList line then st
  else if line.head? == some '[' && line.getLast? == some ']' then
    { metadata := saveCurrent st
      current_id := some ((line.drop 1).dropLast)
      current_meta := [] }
  else if line.contains ':' && st.current_id.isSome then
    match splitFirst [':'] line with
    | some (key, value) =>
      { st with current_meta :=
          dictInsert (pyLower (pyStrip key)) (pyStrip value) st.current_meta }
    | none => st
  else st

/-- Metadata parse of the full system block: run the line loop from the empty
state over the lines of the stripped content, then save the last open
bracket (src/agents/primary_counselor.py lines 122-144). -/
def parseMetadata (lines : List (List Char)) : List (List Char × List (List Char × List Char)) :=
  saveCurrent (lines.foldl metaStep ⟨[], none, []⟩)

/-- Actionable item record (src/agents/primary_counselor.py lines 16-32). -/
structure ActionableItem where
  item_id : List Char
  text : List Char
  category : List Char
  year : List Char
  url : Option (List Char)
deriving DecidableEq

/-- PrimaryCounselorAgent._parse_actionable_items (src/agents/
primary_counselor.py lines 107-167): find all tag matches and the system
block; without a system block return the empty list; otherwise build one
item per tag whose id has a metadata entry (tags without one are silently
dropped), with category and year defaulting to the empty string and url to
None.  The Python body is wrapped in a catch-all returning the empty list;
every path of this embedding is total, so no exception escapes. -/
def parse_actionable_items (response : List Char) : List ActionableItem :=
  match findSystem response with
  | none => []
  | some sysContent =>
    (findTags response).filterMap fun tag =>
      match dictGet? (parseMetadata (splitOnNl (pyStrip sysContent))) tag.1 with
      | some m =>
        some { item_id := tag.1
               text := pyStrip tag.2
               category := (dictGet? m "category".toList).getD []
               year := (dictGet? m "year".toList).getD []
               url := dictGet? m "url".toList }
      | none => none

/-- re.sub of the system pattern with the empty replacement: every
non-overlapping system block (lazily shortest content) is deleted.
Structured over explicit fuel for kernel evaluation; each step consumes at
least one character, so fuel equal to the length of the string is always
sufficient, and with that much fuel the zero-fuel case only sees the empty
string (which it returns unchanged). -/
def removeSystemBlocksAux : Nat → List Char → List Char
  | 0, s => s
  | _ + 1, [] => []
  | fuel + 1, c :: s =>
    match chomp? "[system]".toList (c :: s) with
    | some s1 =>
      match splitFirst "[/system]".toList s1 with
      | some pr => removeSystemBlocksAux fuel pr.2
      | none => c :: removeSystemBlocksAux fuel s
    | none => c :: removeSystemBlocksAux fuel s

/-- The response with every system block deleted. -/
def removeSystemBlocks (s : List Char) : List Char :=
  removeSystemBlocksAux s.length s

/-- Python str.replace for a non-empty pattern: replace every non-overlapping
occurrence, scanning left to right.  Fuel as in removeSystemBlocksAux. -/
def strReplaceAux (pat repl : List Char) : Nat → List Char → List Char
  | 0, s => s
  | _ + 1, [] => []
  | fuel + 1, c :: s =>
    match chomp? pat (c :: s) with
    | some rest => repl ++ strReplaceAux pat repl fuel rest
    | none => c :: strReplaceAux pat repl fuel s

/-- Python str.replace.  The formatter only ever replaces full tag literals,
which are never empty; the empty-pattern case (which Python treats as
inserting between every character) therefore never arises and is mapped to
the identity. -/
def strReplace (pat repl s : List Char) : List Char :=
  if pat = [] then s else strReplaceAux pat repl s.length s

/-- Match of the digits-only cleanup tag pattern anchored at the start: the
actionable opening literal, a non-empty maximal run of digits followed
immediately by quote and greater-than, then the lazily shortest text up to
the closing literal; yields the text capture and the remainder. -/
def matchDigitTag (s : List Char) : Option (List Char × List Char) :=
  match chomp? "<actionable id=\"".toList s with
  | none => none
  | some s1 =>
    if s1.takeWhile Char.isDigit = [] then none
    else
      match chomp? "\">".toList (s1.dropWhile Char.isDigit) with
      | none => none
      | some s2 => splitFirst "</actionable>".toList s2

/-- re.sub of the digits-only cleanup pattern with the text capture as
replacement: each matched tag is unwrapped to its text, scanning resuming
after the match.  Fuel as in removeSystemBlocksAux; matchDigitTag_rest_lt
shows each step consumes at least one character. -/
def cleanupTagsAux : Nat → List Char → List Char
  | 0, s => s
  | _ + 1, [] => []
  | fuel + 1, c :: s =>
    match matchDigitTag (c :: s) with
    | some pr => pr.1 ++ cleanupTagsAux fuel pr.2
    | none => c :: cleanupTagsAux fuel s

/-- The display string with every remaining digits-id tag unwrapped. -/
def cleanupTags (s : List Char) : List Char := cleanupTagsAux s.length s

/-- Helper for the newline-collapse regex: seen counts the newlines read in
the current run; from the third one on, the newline is dropped. -/
def collapseNlAux : Nat → List Char → List Char
  | _, [] => []
  | seen, '\n' :: s =>
    if 2 ≤ seen then collapseNlAux (seen + 1) s
    else '\n' :: collapseNlAux (seen + 1) s
  | _, c :: s => c :: collapseNlAux 0 s

/-- re.sub of three-or-more newlines with exactly two: every maximal newline
run of length at least three is shortened to two, shorter runs are kept. -/
def collapseNl (s : List Char) : List Char := collapseNlAux 0 s

/-- Tag literal rebuilt by the formatter for one item (the f-string at
src/agents/primary_counselor.py lines 177-178). -/
def tagLiteral (it : ActionableItem) : List Char :=
  "<actionable id=\"".toList ++ it.item_id ++ "\">".toList ++ it.text ++ "</actionable>".toList

/-- PrimaryCounselorAgent._format_response_with_actionable (src/agents/
primary_counselor.py lines 169-191): delete the system blocks, strip, replace
each item's rebuilt tag literal by its bare text, unwrap any remaining
digits-id tags, collapse newline runs; returns the display string together
with the item list. -/
def format_response_with_actionable (response : List Char) (items : List ActionableItem) :
    List Char × List ActionableItem :=
  let d0 := pyStrip (removeSystemBlocks response)
  let d1 := items.foldl (fun acc it => strReplace (tagLiteral it) it.text acc) d0
  (collapseNl (cleanupTags d1), items)

/-- Concrete response for the C3 witness, the end-to-end example of the
specification: one tag, one matching metadata sub-header with category and
year lines. -/
def c3ex : List Char :=
  "Intro <actionable id=\"1\">Join robotics club</actionable> more\n[system]\nactionable:\n[1]\ncategory: Clubs\nyear: 10th\n[/system]".toList

/-- System-block content of c3ex as found by the search. -/
def c3sys : List Char := "\nactionable:\n[1]\ncategory: Clubs\nyear: 10th\n".toList

/-! ## Claims C4 and C5: zero tags, missing block, and what the formatter
really does to the text -/

/-- Input for the C4 counterexample: no actionable tags, no system block,
but leading/trailing whitespace and a four-newline run. -/
def c4ex : List Char := "  Hello\n\n\n\nthere  ".toList

/-- Input for the C4 witness. -/
def c4wex : List Char := "Plain answer with no tags.".toList

/-- Input for the C5 counterexample: no system block, surrounded by
whitespace. -/
def c5ex : List Char := "  spaced response  ".toList

/-- Input for the C5 witness. -/
def c5wex : List Char := "hello there".toList

/-! ## Claim C6: duplicate bracketed sub-headers -/

/-- Effect of one non-bracket line on the collected metadata alone (the
metadata dict and the open id of the loop state are untouched by such
lines). -/
def lineMeta (cm : List (List Char × List Char)) (rawLine : List Char) :
    List (List Char × List Char) :=
  let line := pyStrip rawLine
  if line = [] then cm
  else if startsWithChars "actionable:".toList line then cm
  else if line.contains ':' then
    match splitFirst [':'] line with
    | some (key, value) => dictInsert (pyLower (pyStrip key)) (pyStrip value) cm
    | none => cm
  else cm

/-- A line that the loop does not treat as a bracketed sub-header. -/
def nonBracketLine (l : List Char) : Bool :=
  !((pyStrip l).head? == some '[' && (pyStrip l).getLast? == some ']')

/-- Response for the C6 counterexample: one tag with id 1 and a system block
holding two sub-headers for index 1, the first with category and year lines,
the second with none. -/
def c6ex : List Char :=
  "<actionable id=\"1\">Do X</actionable>\n[system]\nactionable:\n[1]\ncategory: A\nyear: 9th\n[1]\n[/system]".toList

/-- System-block content of c6ex. -/
def c6sys : List Char := "\nactionable:\n[1]\ncategory: A\nyear: 9th\n[1]\n".toList

/-! ## Theorems -/

theorem chomp?_length {pat s r : List Char} (h : chomp? pat s = some r) :
    r.length + pat.length = s.length := by
  induction pat generalizing s with
  | nil => simp [chomp?] at h; simp [h]
  | cons p ps ih =>
    cases s with
    | nil => simp [chomp?] at h
    | cons c cs =>
      by_cases hpc : p = c
      · simp [chomp?, hpc] at h
        have := ih h
        simp [List.length_cons]
        omega
      · simp [chomp?, hpc] at h

theorem splitFirst_length {pat s b a : List Char} (h : splitFirst pat s = some (b, a)) :
    a.length + pat.length + b.length = s.length := by
  induction s generalizing b a with
  | nil =>
    cases hc : chomp? pat [] with
    | none => simp [splitFirst, hc] at h
    | some r =>
      simp only [splitFirst, hc, Option.some.injEq, Prod.mk.injEq] at h
      obtain ⟨rfl, rfl⟩ := h
      have hl := chomp?_length hc
      simpa using hl
  | cons c cs ih =>
    cases hc : chomp? pat (c :: cs) with
    | some r =>
      simp only [splitFirst, hc, Option.some.injEq, Prod.mk.injEq] at h
      obtain ⟨rfl, rfl⟩ := h
      have hl := chomp?_length hc
      simpa using hl
    | none =>
      simp only [splitFirst, hc, Option.map_eq_some'] at h
      obtain ⟨⟨b1, a1⟩, hba, heq⟩ := h
      simp only [Prod.mk.injEq] at heq
      obtain ⟨rfl, rfl⟩ := heq
      have := ih hba
      simp only [List.length_cons]
      omega

theorem length_dropWhile_le (p : Char → Bool) (l : List Char) :
    (l.dropWhile p).length ≤ l.length := by
  induction l with
  | nil => simp [List.dropWhile]
  | cons c cs ih =>
    by_cases h : p c
    · simp [List.dropWhile, h]; omega
    · simp [List.dropWhile, h]

/-- C10: a query whose stripped text does not start with SELECT
(case-insensitive) makes Database.execute commit and return the empty list,
discarding any rows the statement produced, while only SELECT-prefixed
queries return the fetched rows; Database.execute_one returns the first
produced row for any query and commits exactly when the query is not
SELECT-prefixed. -/
theorem execute_select_discipline {Row : Type} (query : List Char) (produced : List Row) :
    (isSelectQuery query = false →
      dbExecute query produced = ⟨[], true⟩ ∧
      dbExecuteOne query produced = ⟨produced.head?, true⟩) ∧
    (isSelectQuery query = true →
      dbExecute query produced = ⟨produced, false⟩ ∧
      dbExecuteOne query produced = ⟨produced.head?, false⟩) := by
  constructor <;> intro h <;> simp [dbExecute, dbExecuteOne, h]

/-- Witness for C10 at an INSERT ... RETURNING query (rows produced by the
cursor are discarded by execute, kept by execute_one) and at a select query. -/
theorem execute_select_discipline_witness :
    dbExecute "INSERT INTO t (x) VALUES (1) RETURNING id".toList [7] = ⟨([] : List Nat), true⟩ ∧
    dbExecuteOne "INSERT INTO t (x) VALUES (1) RETURNING id".toList [7] = ⟨some 7, true⟩ ∧
    dbExecute "  select id from users".toList [3, 4] = ⟨[3, 4], false⟩ := by
  refine ⟨?_, ?_, ?_⟩
  · exact ((execute_select_discipline _ _).1 (by decide)).1
  · exact ((execute_select_discipline _ _).1 (by decide)).2
  · exact ((execute_select_discipline "  select id from users".toList [3, 4]).2 (by decide)).1

/-- Counterexample to C1: a stored document whose updated_at lies 25 hours in
the past (stored at hour 0, fetched at hour 25) with an unchanged profile is
returned from the cache, not regenerated — the code has no age, version or
profile-hash invalidation, only the explicit refresh button. The claim
demands regeneration here. -/
theorem render_college_matches_stale_cached :
    render_college_matches_fetch false 25 "profile-unchanged"
      (some ⟨"cached-doc", 0⟩) (fun _ => "fresh-doc") =
      FetchOutcome.cachedDoc ⟨"cached-doc", 0⟩ := by
  rfl

/-- C1 (amended): a fetch triggers regeneration exactly when the caller forces
refresh or no stored record exists; whenever a stored record exists and
refresh is not forced, the cached document is returned unchanged regardless
of its age or of any profile change (so the 1-hour-old scenario of the claim
does return the cached document, but the 25-hour-old scenario does too). -/
theorem render_college_matches_cache_decision (force_refresh : Bool) (now : Int)
    (profile : String) (stored : Option CollegeMatchRow) (generate : String → String) :
    (render_college_matches_fetch force_refresh now profile stored generate =
        FetchOutcome.regenerated (generate profile) ↔
      (force_refresh = true ∨ stored = none)) ∧
    (∀ row, stored = some row → force_refresh = false →
      render_college_matches_fetch force_refresh now profile stored generate =
        FetchOutcome.cachedDoc row) := by
  constructor
  · cases force_refresh <;> cases stored <;>
      simp [render_college_matches_fetch]
  · intro row hrow hfr
    subst hrow; subst hfr
    rfl

/-- Witness for the amended C1 at the claim's fresh-cache scenario: a record
stored one hour ago, no forced refresh, cached document returned unchanged. -/
theorem render_college_matches_cache_decision_witness :
    render_college_matches_fetch false 1 "profile"
      (some ⟨"doc-1h", 0⟩) (fun _ => "fresh") = FetchOutcome.cachedDoc ⟨"doc-1h", 0⟩ :=
  (render_college_matches_cache_decision false 1 "profile"
    (some ⟨"doc-1h", 0⟩) (fun _ => "fresh")).2 ⟨"doc-1h", 0⟩ rfl rfl

/-- C8: the calendar export produces one VEVENT per deadline row, and every
produced VEVENT carries exactly one alarm, a DISPLAY alarm triggered 7 days
before the event start. -/
theorem generate_ics_one_event_per_deadline (deadlines : List Deadline) :
    (generate_ics_file deadlines).events.length = deadlines.length ∧
    ∀ e ∈ (generate_ics_file deadlines).events,
      e.alarms.length = 1 ∧ ∀ a ∈ e.alarms, a.action = "DISPLAY" ∧ a.trigger_days = -7 := by
  constructor
  · simp [generate_ics_file]
  · intro e he
    simp only [generate_ics_file, List.mem_map] at he
    obtain ⟨d, _, hd⟩ := he
    subst hd
    refine ⟨rfl, ?_⟩
    intro a ha
    simp [create_calendar_event] at ha
    subst ha
    exact ⟨rfl, rfl⟩

/-- Witness for C8 at a concrete two-deadline list. -/
theorem generate_ics_one_event_per_deadline_witness :
    (generate_ics_file
        [⟨"MIT", "Early Action", 20000, none⟩,
         ⟨"Caltech", "Regular", 20060, some "essays"⟩]).events.length = 2 ∧
    ∀ a ∈ (create_calendar_event ⟨"MIT", "Early Action", 20000, none⟩).alarms,
      a.action = "DISPLAY" ∧ a.trigger_days = -7 := by
  constructor
  · exact (generate_ics_one_event_per_deadline
      [⟨"MIT", "Early Action", 20000, none⟩, ⟨"Caltech", "Regular", 20060, some "essays"⟩]).1
  · exact ((generate_ics_one_event_per_deadline
      [⟨"MIT", "Early Action", 20000, none⟩, ⟨"Caltech", "Regular", 20060, some "essays"⟩]).2
      (create_calendar_event ⟨"MIT", "Early Action", 20000, none⟩)
      (by simp [generate_ics_file])).2

theorem ladder_all_raise (oracle : Nat → Option String) (prov : String)
    (hp : knownProvider prov = true) :
    ∀ n k, 1 ≤ n → (∀ i, i < n → oracle (k + i) = none) →
      ladder oracle prov n k = LadderOut.lastRaise (List.replicate n prov) (k + n) := by
  intro n
  induction n with
  | zero => intro k h; omega
  | succ m ih =>
    intro k _ hfail
    have h0 : oracle k = none := by simpa using hfail 0 (by omega)
    by_cases hm : m = 0
    · subst hm
      simp [ladder, hp, h0]
    · have hih := ih (k + 1) (by omega) (fun i hi => by
        have := hfail (i + 1) (by omega)
        simpa [Nat.add_assoc, Nat.add_comm 1 i] using this)
      simp only [ladder, hp, if_true, h0]
      rw [if_neg hm, hih]
      have hk : k + 1 + m = k + (m + 1) := by omega
      rw [hk, List.replicate_succ]

theorem ladder_unknown (oracle : Nat → Option String) (prov : String)
    (hp : knownProvider prov = false) :
    ∀ n k, ladder oracle prov n k = LadderOut.fellOff [] k := by
  intro n
  induction n with
  | zero => intro k; rfl
  | succ m ih => intro k; simp [ladder, hp, ih]

/-- C2 (amended): when the primary provider raises on every one of the
retry-budget attempts and a fallback provider is configured whose first
request returns text t, then exactly one fallback request is made, it comes
after the primary's retries requests, and the returned text is the text of
that fallback request (request index retries, the one right after the
primary budget). -/
theorem make_api_call_fallback_once (oracle : Nat → Option String) (retries : Nat)
    (p fbp t : String)
    (hp : knownProvider p = true) (hfp : knownProvider fbp = true)
    (hr : 1 ≤ retries)
    (hfail : ∀ i, i < retries → oracle i = none)
    (hfb : oracle retries = some t) :
    make_api_call oracle retries true (ModelCfg.withFb p (ModelCfg.leaf fbp)) 0 =
      (CallResult.text t, List.replicate retries p ++ [fbp], retries + 1) := by
  have hl := ladder_all_raise oracle p hp retries 0 hr (fun i hi => by simpa using hfail i hi)
  rw [show (0 : Nat) + retries = retries by omega] at hl
  obtain ⟨m, rfl⟩ : ∃ m, retries = m + 1 := ⟨retries - 1, by omega⟩
  have hfb1 : ladder oracle fbp (m + 1) (m + 1) = LadderOut.gotText t [fbp] (m + 1 + 1) := by
    simp [ladder, hfp, hfb]
  simp [make_api_call, hl, hfb1]

/-- Counterexample to C2 as stated: with the retry budget 3, a primary that
raises on every attempt and a configured fallback that also raises on every
attempt, the wrapper makes three fallback requests — the full retry budget
runs on the fallback configuration too — not exactly one, and raises
AgentError.  The claim holds only when the fallback's first request returns
(the amended statement). -/
theorem make_api_call_fallback_retries_thrice :
    make_api_call (fun _ => none) 3 true
        (ModelCfg.withFb "openai" (ModelCfg.leaf "anthropic")) 0 =
      (CallResult.raised,
        List.replicate 3 "openai" ++ List.replicate 3 "anthropic", 6) := by
  decide

/-- Witness for C2: retry budget 3, primary openai raising on requests 0-2,
fallback anthropic returning on request 3; the wrapper returns the fallback
text after exactly one fallback request. -/
theorem make_api_call_fallback_once_witness :
    make_api_call (fun i => if i < 3 then none else some "fallback-text") 3 true
        (ModelCfg.withFb "openai" (ModelCfg.leaf "anthropic")) 0 =
      (CallResult.text "fallback-text",
        List.replicate 3 "openai" ++ ["anthropic"], 4) :=
  make_api_call_fallback_once (fun i => if i < 3 then none else some "fallback-text") 3
    "openai" "anthropic" "fallback-text" (by decide) (by decide) (by decide)
    (fun i hi => by simp [hi]) (by decide)

/-- C9: with a configured provider name that is neither openai nor anthropic,
_make_api_call returns None (the implicit fall-through of the retry loop)
without making any provider request and without raising the typed AgentError:
the result is noneRet with an empty request trace. -/
theorem make_api_call_unknown_provider (oracle : Nat → Option String) (retries : Nat)
    (fbClient : Bool) (cfg : ModelCfg) (k : Nat)
    (h : knownProvider cfg.provider = false) :
    make_api_call oracle retries fbClient cfg k = (CallResult.noneRet, [], k) := by
  cases cfg with
  | leaf p =>
    have := ladder_unknown oracle p h retries k
    simp [make_api_call, this]
  | withFb p fb =>
    have := ladder_unknown oracle p h retries k
    simp [make_api_call, this]

/-- Witness for C9: provider gemini, three retries, an oracle that would
return text if consulted; the wrapper still returns None with no requests. -/
theorem make_api_call_unknown_provider_witness :
    make_api_call (fun _ => some "unreachable") 3 true (ModelCfg.leaf "gemini") 0 =
      (CallResult.noneRet, [], 0) :=
  make_api_call_unknown_provider (fun _ => some "unreachable") 3 true
    (ModelCfg.leaf "gemini") 0 (by decide)

/-- C7 (code bug): route_query never issues a classification request at all.
The call names the keyword response_format, which the overriding
_make_api_call does not accept, so every invocation raises TypeError inside
the try block and the catch-all returns the no-routing decision — for every
query and regardless of what the provider or the JSON parser would do.  The
claim's error-fallback half (no exception escapes, no-routing returned) holds,
but its one-classification-call half never does: the request count is 0. -/
theorem route_query_never_calls (query : String)
    (api : String → Except PyError String)
    (parseJson : String → Except PyError RoutingDecision) :
    route_query query api parseJson = (⟨false, none, "Routing failed"⟩, 0) := by
  rfl

theorem matchTag_rest_lt {s : List Char} {r : TagMatch} (h : matchTag s = some r) :
    r.tagRest.length < s.length := by
  unfold matchTag at h
  split at h
  · exact absurd h (by simp)
  · rename_i s1 hc
    have e1 := chomp?_length hc
    split at h
    · exact absurd h (by simp)
    · split at h
      · rename_i s2 hdrop
        split at h
        · rename_i txt rest hsplit
          have e2 := splitFirst_length hsplit
          have e3 : s2.length + 2 ≤ s1.length := by
            have := length_dropWhile_le (fun c => c != '"') s1
            rw [hdrop] at this
            simpa using this
          simp only [Option.some.injEq] at h
          subst h
          simp only []
          have hpat13 : ("</actionable>".toList).length = 13 := by decide
          have hpat16 : ("<actionable id=\"".toList).length = 16 := by decide
          rw [hpat13] at e2
          rw [hpat16] at e1
          omega
        · exact absurd h (by simp)
      · exact absurd h (by simp)

theorem matchDigitTag_rest_lt {s : List Char} {pr : List Char × List Char}
    (h : matchDigitTag s = some pr) : pr.2.length < s.length := by
  unfold matchDigitTag at h
  split at h
  · exact absurd h (by simp)
  · rename_i s1 hc
    have e1 := chomp?_length hc
    split at h
    · exact absurd h (by simp)
    · split at h
      · exact absurd h (by simp)
      · rename_i s2 hc2
        have e2 := chomp?_length hc2
        have e3 := length_dropWhile_le Char.isDigit s1
        have e4 := splitFirst_length (Prod.mk.eta (p := pr) ▸ h)
        have hpat13 : ("</actionable>".toList).length = 13 := by decide
        have hpat16 : ("<actionable id=\"".toList).length = 16 := by decide
        have hpat2 : ("\">".toList).length = 2 := by decide
        rw [hpat13] at e4
        rw [hpat16] at e1
        rw [hpat2] at e2
        omega

/-! ## Supporting lemmas for the extractor claims -/

theorem length_filterMap_of_isSome {α β : Type} (f : α → Option β) :
    ∀ l : List α, (∀ a ∈ l, (f a).isSome) → (l.filterMap f).length = l.length := by
  intro l
  induction l with
  | nil => intro _; rfl
  | cons a as ih =>
    intro h
    obtain ⟨b, hb⟩ := Option.isSome_iff_exists.mp (h a (by simp))
    simp [List.filterMap_cons, hb, ih (fun x hx => h x (by simp [hx]))]

theorem find?_append_key {α : Type} (k : List Char) (v : α) :
    ∀ d : List (List Char × α), (∀ p ∈ d, (p.1 == k) = false) →
      (d ++ [(k, v)]).find? (fun p => p.1 == k) = some (k, v) := by
  intro d
  induction d with
  | nil => intro _; simp [List.find?]
  | cons p ps ih =>
    intro hall
    have hp := hall p (by simp)
    simp only [List.cons_append, List.find?_cons, hp]
    exact ih (fun q hq => hall q (by simp [hq]))

theorem dictGet?_insert_self {α : Type} (k : List Char) (v : α)
    (d : List (List Char × α)) : dictGet? (dictInsert k v d) k = some v := by
  unfold dictGet? dictInsert
  rw [find?_append_key k v _ ?_]
  · rfl
  · intro p hp
    have := (List.mem_filter.mp hp).2
    simpa [bne] using this

/-! ## Claim C3: well-formed tags with matching metadata -/

/-- C3: when the response carries a system block and the parsed metadata of
that block covers the id of every tag match with a category entry and a year
entry that are non-empty, the extractor returns exactly one item per tag
match, each with non-empty category and year. -/
theorem parse_items_count_and_fields (response sysContent : List Char)
    (hsys : findSystem response = some sysContent)
    (hcover : ∀ tag ∈ findTags response,
      ∃ m, dictGet? (parseMetadata (splitOnNl (pyStrip sysContent))) tag.1 = some m ∧
        (∃ c, dictGet? m "category".toList = some c ∧ c ≠ []) ∧
        (∃ y, dictGet? m "year".toList = some y ∧ y ≠ [])) :
    (parse_actionable_items response).length = (findTags response).length ∧
    ∀ it ∈ parse_actionable_items response, it.category ≠ [] ∧ it.year ≠ [] := by
  have hrw : parse_actionable_items response =
      (findTags response).filterMap fun tag =>
        match dictGet? (parseMetadata (splitOnNl (pyStrip sysContent))) tag.1 with
        | some m =>
          some { item_id := tag.1
                 text := pyStrip tag.2
                 category := (dictGet? m "category".toList).getD []
                 year := (dictGet? m "year".toList).getD []
                 url := dictGet? m "url".toList }
        | none => none := by
    simp [parse_actionable_items, hsys]
  constructor
  · rw [hrw]
    apply length_filterMap_of_isSome
    intro tag htag
    obtain ⟨m, hm, _⟩ := hcover tag htag
    simp [hm]
  · intro it hit
    rw [hrw, List.mem_filterMap] at hit
    obtain ⟨tag, htag, hf⟩ := hit
    obtain ⟨m, hm, ⟨c, hc, hcne⟩, ⟨y, hy, hyne⟩⟩ := hcover tag htag
    rw [hm] at hf
    simp only [Option.some.injEq] at hf
    subst hf
    constructor
    · show (dictGet? m "category".toList).getD [] ≠ []
      rw [hc]
      simpa using hcne
    · show (dictGet? m "year".toList).getD [] ≠ []
      rw [hy]
      simpa using hyne

/-- Witness for C3 at the specification's own example response. -/
theorem parse_items_count_and_fields_witness :
    (parse_actionable_items c3ex).length = (findTags c3ex).length ∧
    ∀ it ∈ parse_actionable_items c3ex, it.category ≠ [] ∧ it.year ≠ [] := by
  apply parse_items_count_and_fields c3ex c3sys (by decide)
  intro tag htag
  have htag1 : tag = ("1".toList, "Join robotics club".toList) := by
    have hl : findTags c3ex = [("1".toList, "Join robotics club".toList)] := by decide
    rw [hl] at htag
    simpa using htag
  subst htag1
  exact ⟨[("category".toList, "Clubs".toList), ("year".toList, "10th".toList)],
    by decide,
    ⟨"Clubs".toList, by decide, by decide⟩,
    ⟨"10th".toList, by decide, by decide⟩⟩

theorem removeSystemBlocksAux_eq_self :
    ∀ (fuel : Nat) (s : List Char), findSystem s = none → s.length ≤ fuel →
      removeSystemBlocksAux fuel s = s := by
  intro fuel
  induction fuel with
  | zero => intro s _ _; rfl
  | succ n ih =>
    intro s hf hle
    cases s with
    | nil => rfl
    | cons c s' =>
      have hlen : s'.length ≤ n := by
        simp only [List.length_cons] at hle
        omega
      cases h1 : chomp? "[system]".toList (c :: s') with
      | some s1 =>
        cases h2 : splitFirst "[/system]".toList s1 with
        | some pr =>
          exfalso
          obtain ⟨content, rest⟩ := pr
          simp only [findSystem, h1, h2] at hf
          exact Option.noConfusion hf
        | none =>
          have hf' : findSystem s' = none := by
            simpa only [findSystem, h1, h2] using hf
          simp only [removeSystemBlocksAux, h1, h2]
          rw [ih s' hf' hlen]
      | none =>
        have hf' : findSystem s' = none := by
          simpa only [findSystem, h1] using hf
        simp only [removeSystemBlocksAux, h1]
        rw [ih s' hf' hlen]

theorem removeSystemBlocks_eq_self {r : List Char} (h : findSystem r = none) :
    removeSystemBlocks r = r :=
  removeSystemBlocksAux_eq_self r.length r h (Nat.le_refl _)

/-- Counterexample to C4: this response contains zero actionable tags and no
system block, so the claim says the display string equals the input with any
stray system block removed — that is, the input itself (second conjunct).
The formatter nevertheless strips the surrounding whitespace and collapses
the four-newline run, so the display differs from the input. -/
theorem format_modifies_without_tags :
    findTags c4ex = [] ∧
    removeSystemBlocks c4ex = c4ex ∧
    (format_response_with_actionable c4ex (parse_actionable_items c4ex)).1 ≠ c4ex := by
  exact ⟨by decide, by decide, by decide⟩

/-- C4 (amended): with zero actionable tags, the extractor returns an empty
item list and the display string is the input after deleting system blocks,
stripping leading/trailing whitespace, unwrapping digits-id tags, and
collapsing newline runs of three or more to two — not the unchanged input. -/
theorem parse_empty_and_display_pipeline (response : List Char)
    (h : findTags response = []) :
    parse_actionable_items response = [] ∧
    (format_response_with_actionable response (parse_actionable_items response)).1 =
      collapseNl (cleanupTags (pyStrip (removeSystemBlocks response))) := by
  have hempty : parse_actionable_items response = [] := by
    unfold parse_actionable_items
    cases hs : findSystem response with
    | none => rfl
    | some sys => simp [h]
  refine ⟨hempty, ?_⟩
  rw [hempty]
  rfl

/-- Witness for the amended C4 at a concrete tag-free response. -/
theorem parse_empty_and_display_pipeline_witness :
    parse_actionable_items c4wex = [] ∧
    (format_response_with_actionable c4wex (parse_actionable_items c4wex)).1 =
      collapseNl (cleanupTags (pyStrip (removeSystemBlocks c4wex))) :=
  parse_empty_and_display_pipeline c4wex (by decide)

/-- Counterexample to C5: with the system block absent the extractor indeed
returns the empty item list, but the text is not returned unmodified — the
formatter strips the surrounding whitespace. -/
theorem format_strips_when_block_absent :
    findSystem c5ex = none ∧
    parse_actionable_items c5ex = [] ∧
    (format_response_with_actionable c5ex (parse_actionable_items c5ex)).1 ≠ c5ex := by
  exact ⟨by decide, by decide, by decide⟩

/-- C5 (amended): the extractor and formatter are total functions (the Python
bodies are additionally wrapped in catch-all handlers returning the degraded
result, so no exception escapes); when the system block is absent the item
list is empty and the display text is the input stripped, digits-id tags
unwrapped and newline runs collapsed (deleting system blocks is the identity
here), rather than the input unmodified. -/
theorem parse_degrades_without_system_block (response : List Char)
    (h : findSystem response = none) :
    parse_actionable_items response = [] ∧
    (format_response_with_actionable response (parse_actionable_items response)).1 =
      collapseNl (cleanupTags (pyStrip response)) := by
  have hempty : parse_actionable_items response = [] := by
    simp [parse_actionable_items, h]
  refine ⟨hempty, ?_⟩
  rw [hempty]
  show (format_response_with_actionable response []).1 = _
  show collapseNl (cleanupTags (pyStrip (removeSystemBlocks response))) = _
  rw [removeSystemBlocks_eq_self h]

/-- Witness for the amended C5 at a concrete block-free response. -/
theorem parse_degrades_without_system_block_witness :
    parse_actionable_items c5wex = [] ∧
    (format_response_with_actionable c5wex (parse_actionable_items c5wex)).1 =
      collapseNl (cleanupTags (pyStrip c5wex)) :=
  parse_degrades_without_system_block c5wex (by decide)

theorem pyStrip_of_ends {c d : Char} (hc : pySpace c = false) (hd : pySpace d = false)
    (mid : List Char) : pyStrip (c :: mid ++ [d]) = c :: mid ++ [d] := by
  unfold pyStrip
  have h1 : (c :: mid ++ [d]).dropWhile pySpace = c :: mid ++ [d] := by
    simp [List.dropWhile, hc]
  rw [h1]
  have h2 : (c :: mid ++ [d]).reverse = d :: (mid.reverse ++ [c]) := by
    simp
  rw [h2]
  have h3 : (d :: (mid.reverse ++ [c])).dropWhile pySpace = d :: (mid.reverse ++ [c]) := by
    simp [List.dropWhile, hd]
  rw [h3, ← h2, List.reverse_reverse]

theorem metaStep_bracket (st : MetaState) (i : List Char) :
    metaStep st ('[' :: i ++ [']']) = ⟨saveCurrent st, some i, []⟩ := by
  have hstrip : pyStrip ('[' :: i ++ [']']) = '[' :: i ++ [']'] :=
    pyStrip_of_ends (by decide) (by decide) i
  have hsw : startsWithChars "actionable:".toList ('[' :: i ++ [']']) = false := rfl
  have hlast : ('[' :: i ++ [']']).getLast? = some ']' := by
    rw [show ('[' :: i ++ [']']) = ('[' :: i) ++ [']'] from rfl, List.getLast?_concat]
  have hid : (('[' :: i ++ [']']).drop 1).dropLast = i := by
    rw [show ('[' :: i ++ [']']).drop 1 = i ++ [']'] from rfl, List.dropLast_concat]
  unfold metaStep
  simp only [hstrip, hsw, hlast, hid]
  simp

theorem metaStep_nonbracket {l : List Char} (h : nonBracketLine l = true)
    (md : List (List Char × List (List Char × List Char))) (i : List Char)
    (cm : List (List Char × List Char)) :
    metaStep ⟨md, some i, cm⟩ l = ⟨md, some i, lineMeta cm l⟩ := by
  have hb : ((pyStrip l).head? == some '[' && (pyStrip l).getLast? == some ']') = false := by
    cases hx : ((pyStrip l).head? == some '[' && (pyStrip l).getLast? == some ']') with
    | false => rfl
    | true => simp [nonBracketLine, hx] at h
  unfold metaStep lineMeta
  simp only [Option.isSome_some, Bool.and_true, hb]
  repeat' split
  all_goals simp_all

theorem foldl_metaStep_nonbracket (S : List (List Char))
    (hS : ∀ l ∈ S, nonBracketLine l = true) :
    ∀ md i cm, S.foldl metaStep ⟨md, some i, cm⟩ =
      ⟨md, some i, S.foldl lineMeta cm⟩ := by
  induction S with
  | nil => intro md i cm; rfl
  | cons l ls ih =>
    intro md i cm
    rw [List.foldl_cons, List.foldl_cons, metaStep_nonbracket (hS l (by simp)) md i cm]
    exact ih (fun x hx => hS x (by simp [hx])) md i (lineMeta cm l)

/-- Counterexample to C6: the system block of c6ex carries two sub-headers
for index 1 (first conjunct counts them); the last of the two carries no
metadata lines, yet the extractor's single item for the tag with id 1 comes
back with the category and year of the FIRST sub-header — the metadata of
the last occurrence (which is empty) is not the one used, so last-occurrence
metadata does not win as the claim states it. -/
theorem duplicate_bracket_first_meta_kept :
    (splitOnNl (pyStrip c6sys)).countP (fun l => pyStrip l == "[1]".toList) = 2 ∧
    findSystem c6ex = some c6sys ∧
    parse_actionable_items c6ex =
      [{ item_id := "1".toList, text := "Do X".toList, category := "A".toList,
         year := "9th".toList, url := none }] := by
  exact ⟨by decide, by decide, by decide⟩

/-- C6 (amended): no uniqueness validation is applied to bracket indices; on
duplicates, the last sub-header for an index that carries at least one
metadata line wins: whatever sub-headers (for this or other indices) the
prefix P contained, when the block ends with a sub-header for index i
followed by non-bracket lines accumulating a non-empty metadata dict, the
parsed metadata at i is exactly that final dict. -/
theorem last_nonempty_bracket_wins (P S : List (List Char)) (i : List Char)
    (hS : ∀ l ∈ S, nonBracketLine l = true)
    (hm : S.foldl lineMeta [] ≠ []) :
    dictGet? (parseMetadata (P ++ ('[' :: i ++ [']']) :: S)) i =
      some (S.foldl lineMeta []) := by
  unfold parseMetadata
  rw [List.foldl_append, List.foldl_cons, metaStep_bracket, foldl_metaStep_nonbracket S hS]
  unfold saveCurrent
  simp only [hm, if_pos, dictGet?_insert_self]
  simp [hm, dictGet?_insert_self]

/-- Witness for the amended C6: an earlier sub-header for index 1 with a
category line is overridden by a later sub-header for the same index carrying
fresh category and year lines. -/
theorem last_nonempty_bracket_wins_witness :
    dictGet? (parseMetadata
        (["[1]".toList, "category: Old".toList] ++
          ('[' :: "1".toList ++ [']']) ::
            ["category: New".toList, "year: 12th".toList])) "1".toList =
      some (["category: New".toList, "year: 12th".toList].foldl lineMeta []) :=
  last_nonempty_bracket_wins ["[1]".toList, "category: Old".toList]
    ["category: New".toList, "year: 12th".toList] "1".toList (by decide) (by decide)

end CollegeCompass
